import Mathlib

/-!
# wee-ftp: a verification development of `ftserver.c`

The C program is embedded shallowly.  A `char` is a `Char`, a C array is a
`List Char` of the array's length, a C string is the part of an array before
its first NUL.  The operating system (sockets, the directory, the files) is
an explicit environment value, and what the server does to it is recorded as
a list of events.  Undefined behaviour of the C program (a NULL argument to a
string function, an access past a fixed-size array) and `exit(1)` are
explicit outcomes.
-/

namespace WeeFtp

/-! ## Characters, C strings, libc -/

/-- The terminating character of C strings. -/
def NUL : Char := Char.ofNat 0

/-- The newline character. -/
def NL : Char := Char.ofNat 10

/-- The ways a call can leave the normal control flow of the C program. -/
inductive Fault where
  /-- The code called `exit(1)`. -/
  | exit1
  /-- NULL was passed to `strncpy` or `atoi` (undefined behaviour). -/
  | nullDeref
  /-- A read or write ran past the end of a fixed-size array (undefined behaviour). -/
  | overrun
deriving DecidableEq, Repr

deriving instance DecidableEq for Except

/-- The C string held at the start of a piece of memory: the characters
before the first NUL. -/
def cstring : List Char → List Char
  | [] => []
  | c :: cs => if c = NUL then [] else c :: cstring cs

/-- `memset(buffer, 0, size)` followed by a successful
`read(fd, buffer, size)` when the peer has sent `msg`: at most `size`
characters are stored, the rest of the array stays NUL. -/
def readInto (size : Nat) (msg : List Char) : List Char :=
  msg.take size ++ List.replicate (size - msg.length) NUL

/-- The delimiter set of `strtok(..., " \n\0")`: the C string `" \n"`. -/
def isDelim (c : Char) : Bool := c == ' ' || c == NL

/-- First phase of `strtok`: step over leading delimiters. -/
def skipDelims : List Char → List Char
  | [] => []
  | c :: cs => if isDelim c then skipDelims cs else c :: cs

/-- Second phase of `strtok`: collect the token up to the next delimiter
(which is overwritten by NUL, the saved pointer moves behind it) or up to the
terminating NUL (the saved pointer stays on it).  `none`: the scan left the
array without meeting either. -/
def scanToken : List Char → Option (List Char × List Char)
  | [] => none
  | c :: cs =>
    if c = NUL then some ([], c :: cs)
    else if isDelim c then some ([], cs)
    else
      match scanToken cs with
      | none => none
      | some (tok, rest) => some (c :: tok, rest)

/-- One call of `strtok` on the memory from the current position to the end
of the array.  Result: the token (`none` is the NULL pointer) and the memory
from the saved position on. -/
def strtok (mem : List Char) : Except Fault (Option (List Char) × List Char) :=
  match skipDelims mem with
  | [] => .error .overrun
  | c :: cs =>
    if c = NUL then .ok (none, c :: cs)
    else
      match scanToken (c :: cs) with
      | none => .error .overrun
      | some (tok, rest) => .ok (some tok, rest)

/-- `strncpy(dst, src, n)` into an array of `n` characters: the string is
copied, truncated to `n` characters, and the array is padded with NUL.  A
NULL source is undefined behaviour. -/
def strncpy (n : Nat) : Option (List Char) → Except Fault (List Char)
  | none => .error .nullDeref
  | some src => .ok (src.take n ++ List.replicate (n - src.length) NUL)

/-- The white space `atoi` steps over (`isspace` in the C locale). -/
def isSpace (c : Char) : Bool :=
  c == ' ' || c == Char.ofNat 9 || c == NL || c == Char.ofNat 11 ||
  c == Char.ofNat 12 || c == Char.ofNat 13

/-- The value of the leading decimal digits of a string, after `acc`. -/
def digitsValue : Nat → List Char → Nat
  | acc, [] => acc
  | acc, c :: cs =>
    if c.isDigit then digitsValue (10 * acc + (c.toNat - 48)) cs else acc

/-- The libc function `strtol(s, NULL, 10)` for a 64-bit `long`: white space,
an optional sign, decimal digits; out-of-range values saturate. -/
def strtol (s : List Char) : Int :=
  match s.dropWhile isSpace with
  | [] => 0
  | c :: cs =>
    if c = '-' then max (-(2 ^ 63 : Int)) (-(digitsValue 0 cs : Int))
    else if c = '+' then min (2 ^ 63 - 1 : Int) (digitsValue 0 cs : Int)
    else min (2 ^ 63 - 1 : Int) (digitsValue 0 (c :: cs) : Int)

/-- Conversion of a `long` to a 32-bit `int`: the low 32 bits, signed. -/
def toInt32 (x : Int) : Int := (x + 2 ^ 31) % 2 ^ 32 - 2 ^ 31

/-- The libc function `atoi`, which is `(int) strtol(s, NULL, 10)`.  A NULL
argument is undefined behaviour. -/
def atoi : Option (List Char) → Except Fault Int
  | none => .error .nullDeref
  | some s => .ok (toInt32 (strtol s))

/-! ## getClientCommand -/

/-- What `getClientCommand` hands back: the returned character, and the two
out-parameters (`fileName` is the whole 512-character array). -/
structure Command where
  action : Char
  dataPort : Int
  fileName : List Char
deriving DecidableEq, Repr

/-- The function `getClientCommand`.  `input` is what `read` on the control
connection delivers: `none` when `read` returns -1, otherwise the characters
the client sent. -/
def getClientCommand (input : Option (List Char)) : Except Fault Command :=
  match input with
  | none => .error .exit1
  | some msg => do
    let buffer := readInto 512 msg
    let (token1, p1) ← strtok buffer
    let cmd ← strncpy 3 token1
    let (token2, p2) ← strtok p1
    let dataPort ← atoi token2
    let (token3, _) ← strtok p2
    let fileName ← strncpy 512 token3
    return { action := cmd.getD 1 NUL, dataPort := dataPort, fileName := fileName }

/-! ## The operating system as seen by one session -/

/-- An open file as `fread` sees it: its bytes, and, when reading fails part
way, the number of bytes delivered before the failure. -/
structure File where
  content : List Char
  failAfter : Option Nat

/-- The bytes that successive `fread` calls deliver before one returns 0. -/
def File.delivered (f : File) : List Char :=
  match f.failAfter with
  | none => f.content
  | some n => f.content.take n

/-- What the operating system, the client and the file system answer during
one pass of the loop of `runServer`. -/
structure Env where
  /-- Result of `accept` on the command listener (-1: failure). -/
  acceptCommand : Int
  /-- Result of `read` on the command connection (`none`: -1). -/
  input : Option (List Char)
  /-- Result of `socket`, `setsockopt`, `bind`, `listen` for a port: the new
  descriptor, or `none` when one of the four calls fails. -/
  listenOn : Int → Option Int
  /-- Result of `accept` on the data listener (-1: failure). -/
  acceptData : Int
  /-- Entry names `readdir` yields for ".", in order (`none`: `opendir` fails). -/
  directory : Option (List (List Char))
  /-- Result of `fopen(name, "r")` (`none`: NULL). -/
  fopen : List Char → Option File

/-- The system calls on sockets that the server makes. -/
inductive Event where
  /-- The calls of `createSocket` for a port, with the descriptor (`none`: failure). -/
  | createSocket (port : Int) (result : Option Int)
  /-- The call of `accept` in `connectSocket`, with its result. -/
  | accept (listener : Int) (result : Int)
  /-- The call `write(fd, payload, |payload|)`. -/
  | write (fd : Int) (payload : List Char)
  /-- The call `close(fd)`. -/
  | close (fd : Int)
deriving DecidableEq, Repr

/-- How one pass of the loop of `runServer` ends. -/
inductive Outcome where
  /-- The end of the loop body was reached: the next `accept` follows. -/
  | next
  /-- The loop was left through `break`. -/
  | stop
  /-- The pass ended in `exit(1)` or in undefined behaviour. -/
  | fault (f : Fault)
  /-- The sending loop was cut off before `fread` returned 0. -/
  | unfinished
deriving DecidableEq, Repr

/-! ## The status texts -/

/-- The text `listFiles` and `transferFile` write before sending data. -/
def validCommandText : List Char := "VALID_COMMAND".toList

/-- The text `transferFile` writes when `fopen` fails. -/
def fileNotFoundText : List Char :=
  "Error: Requested file not found in the current directory. Aborting...\n".toList

/-- The text `runServer` writes for a command that is neither list nor get. -/
def invalidCommandText : List Char :=
  "Invalid command. Use \"-l\" to list files, or \"-g <filename>\" to retrieve a file.\n".toList

/-- The text `listFiles` sends for a directory without entries. -/
def emptyDirectoryText : List Char := "The directory is empty.".toList

/-! ## listFiles -/

/-- `strcat(dst, src)` where `dst` is an array of `cap` characters holding
the string `dstStr`: the result string, or a write past the array. -/
def strcat (cap : Nat) (dstStr src : List Char) : Except Fault (List Char) :=
  if dstStr.length + (cstring src).length + 1 ≤ cap then .ok (dstStr ++ cstring src)
  else .error .overrun

/-- The `readdir` loop of `listFiles`: every name and a newline are appended
to `message`, an array of 1024 characters. -/
def appendEntries : List (List Char) → List Char → Except Fault (List Char)
  | [], message => .ok message
  | name :: rest, message => do
    let m1 ← strcat 1024 message name
    let m2 ← strcat 1024 m1 [NL]
    appendEntries rest m2

/-- The function `listFiles`: the events it causes, and the fault that cut
it short, if any. -/
def listFiles (clientDataSocket clientCommandSocket : Int)
    (directory : Option (List (List Char))) : List Event × Option Fault :=
  let status := [Event.write clientCommandSocket validCommandText]
  match directory with
  | none => (status, none)
  | some names =>
    match appendEntries names [] with
    | .error f => (status, some f)
    | .ok listing =>
      let message := if listing.length ≤ 1 then emptyDirectoryText else listing
      (status ++ [Event.write clientDataSocket message], none)

/-! ## transferFile -/

/-- The `do ... while(numBytes > 0)` loop of `transferFile` on the bytes
still to be delivered: `fread` takes up to 512 of them, `write` sends what
was read, and the loop ends after a read of 0 bytes.  `fuel` bounds the
number of passes; `none` means it was used up. -/
def sendLoop (clientDataSocket : Int) : Nat → List Char → Option (List Event)
  | 0, _ => none
  | fuel + 1, rest =>
    let dataBuffer := rest.take 512
    let numBytes := dataBuffer.length
    let ev := Event.write clientDataSocket dataBuffer
    if numBytes > 0 then
      match sendLoop clientDataSocket fuel (rest.drop 512) with
      | none => none
      | some evs => some (ev :: evs)
    else some [ev]

/-- The function `transferFile`, given the result of `fopen(fileName, "r")`. -/
def transferFile (clientDataSocket clientCommandSocket : Int)
    (file : Option File) : Option (List Event) :=
  match file with
  | none => some [Event.write clientCommandSocket fileNotFoundText]
  | some f =>
    match sendLoop clientDataSocket (f.delivered.length + 1) f.delivered with
    | none => none
    | some evs => some (Event.write clientCommandSocket validCommandText :: evs)

/-! ## runServer -/

/-- One pass of the `while(1)` loop of `runServer`: the events, and how the
pass ends. -/
def runSession (serverCommandSocket : Int) (env : Env) : List Event × Outcome :=
  let clientCommandSocket := env.acceptCommand
  let ev0 := [Event.accept serverCommandSocket clientCommandSocket]
  if clientCommandSocket = -1 then (ev0, .stop)
  else
    match getClientCommand env.input with
    | .error f => (ev0, .fault f)
    | .ok cmd =>
      match env.listenOn cmd.dataPort with
      | none => (ev0 ++ [Event.createSocket cmd.dataPort none], .fault .exit1)
      | some serverDataSocket =>
        let clientDataSocket := env.acceptData
        let ev1 := ev0 ++ [Event.createSocket cmd.dataPort (some serverDataSocket),
          Event.accept serverDataSocket clientDataSocket]
        let closes := [Event.close serverDataSocket, Event.close clientDataSocket,
          Event.close clientCommandSocket]
        if cmd.action = 'l' then
          match listFiles clientDataSocket clientCommandSocket env.directory with
          | (evs, some f) => (ev1 ++ evs, .fault f)
          | (evs, none) => (ev1 ++ evs ++ closes, .next)
        else if cmd.action = 'g' then
          match transferFile clientDataSocket clientCommandSocket
              (env.fopen (cstring cmd.fileName)) with
          | none => (ev1, .unfinished)
          | some evs => (ev1 ++ evs ++ closes, .next)
        else
          (ev1 ++ [Event.write clientCommandSocket invalidCommandText] ++ closes, .next)

/-- The function `runServer` on the answers of the operating system for the
coming passes of its loop.  Outcome `next` at the end: the server waits in
`accept` for a further client. -/
def runServer (serverCommandSocket : Int) : List Env → List Event × Outcome
  | [] => ([], .next)
  | env :: rest =>
    match runSession serverCommandSocket env with
    | (evs, .next) =>
      ((evs ++ (runServer serverCommandSocket rest).1), (runServer serverCommandSocket rest).2)
    | (evs, o) => (evs, o)

/-! ## Reading traces -/

/-- The payloads of the `write` calls on descriptor `fd`, in order. -/
def writesOn (fd : Int) : List Event → List (List Char)
  | [] => []
  | Event.write fd' payload :: evs =>
    if fd' = fd then payload :: writesOn fd evs else writesOn fd evs
  | _ :: evs => writesOn fd evs

/-- The data sockets a trace sets up: ports of `createSocket` calls. -/
def createdPorts : List Event → List Int
  | [] => []
  | Event.createSocket port _ :: evs => port :: createdPorts evs
  | _ :: evs => createdPorts evs

/-- The events of a pass of the loop before the dispatch on the command:
the control connection is accepted, the data listener created for `port`
with descriptor `sd`, the data connection accepted. -/
def setupEvents (l : Int) (env : Env) (port sd : Int) : List Event :=
  [Event.accept l env.acceptCommand, Event.createSocket port (some sd),
    Event.accept sd env.acceptData]

/-- The three `close` calls at the end of a pass of the loop. -/
def closeEvents (env : Env) (sd : Int) : List Event :=
  [Event.close sd, Event.close env.acceptData, Event.close env.acceptCommand]

/-! ## The specification's vocabulary -/

/-- The three kinds of status reply of the specification. -/
inductive StatusKind where
  | Proceeding
  | FileNotFound
  | InvalidCommand
deriving DecidableEq, Repr

/-- The literal the specification gives for each status kind. -/
def specStatusText : StatusKind → List Char
  | .Proceeding => "VALID_COMMAND".toList
  | .FileNotFound =>
    "Error: Requested file not found in the current directory. Aborting...".toList
  | .InvalidCommand =>
    "Invalid command. Use \"-l\" to list files, or \"-g <filename>\" to retrieve a file.".toList

/-- The base-10 value of a string of decimal digits. -/
def decimalValue (s : List Char) : Nat :=
  s.foldl (fun n c => 10 * n + (c.toNat - 48)) 0

/-- A token of a control message: not empty, free of delimiters and of NUL. -/
def IsToken (t : List Char) : Prop :=
  t ≠ [] ∧ ∀ c ∈ t, isDelim c = false ∧ c ≠ NUL

instance : DecidablePred IsToken := fun t => by unfold IsToken; infer_instance

/-- A run of spaces and newlines. -/
def IsDelims (s : List Char) : Prop := ∀ c ∈ s, isDelim c = true

instance : DecidablePred IsDelims := fun s => by unfold IsDelims; infer_instance

/-- An entry name as `readdir` yields it: a non-empty C string. -/
def IsName (n : List Char) : Prop := n ≠ [] ∧ NUL ∉ n

instance : DecidablePred IsName := fun n => by unfold IsName; infer_instance

/-- The listing of the specification: every name followed by one newline. -/
def specListing (names : List (List Char)) : List Char :=
  (names.map (fun n => n ++ [NL])).flatten

/-! ## Sample inputs -/

/-- The name of entry `i` of the large directory: runs of the letters a, b and
c whose lengths encode `i`, then one hundred d. -/
def hugeName (i : Nat) : List Char :=
  List.replicate (i % 50 + 1) 'a' ++ List.replicate (i / 50 % 50 + 1) 'b' ++
    List.replicate (i / 2500 + 1) 'c' ++ List.replicate 100 'd'

/-- A directory with 125000 entries of distinct names, each at most 250
characters long. -/
def hugeDirectory : List (List Char) := (List.range 125000).map hugeName

/-- A sample pass: the client on descriptor 4 sends `msg`, the data listener
is descriptor 5, the data connection descriptor 6, and the directory holds the
one regular file `notes.txt`. -/
def sampleEnv (msg : List Char) : Env where
  acceptCommand := 4
  input := some msg
  listenOn := fun _ => some 5
  acceptData := 6
  directory := some [".".toList, "..".toList, "notes.txt".toList]
  fopen := fun name => if name = "notes.txt".toList then some ⟨"hello".toList, none⟩ else none

/-! ## transferFile -/

theorem sendLoop_enough (fd : Int) :
    ∀ (fuel : Nat) (rest : List Char), rest.length < fuel →
      ∃ chunks : List (List Char),
        sendLoop fd fuel rest = some (chunks.map (Event.write fd)) ∧
        chunks.flatten = rest ∧ ∀ w ∈ chunks, w.length ≤ 512 := by
  intro fuel
  induction fuel with
  | zero => intro rest h; omega
  | succ n ih =>
    intro rest h
    by_cases hpos : (rest.take 512).length > 0
    · have hlen : (rest.drop 512).length < n := by
        have h1 : (rest.take 512).length = min 512 rest.length := List.length_take _ _
        have h2 : (rest.drop 512).length = rest.length - 512 := List.length_drop _ _
        omega
      obtain ⟨chunks, hs, hj, hb⟩ := ih (rest.drop 512) hlen
      refine ⟨rest.take 512 :: chunks, ?_, ?_, ?_⟩
      · simp only [sendLoop, hpos, if_true, hs, List.map_cons]
      · simp [hj]
      · intro w hw
        rcases List.mem_cons.mp hw with h1 | h1
        · subst h1; simp [List.length_take]
        · exact hb w h1
    · have hnil : rest = [] := by
        cases rest with
        | nil => rfl
        | cons c cs => simp at hpos
      subst hnil
      refine ⟨[[]], ?_, ?_, ?_⟩
      · simp [sendLoop]
      · simp
      · simp

theorem transferFile_open (cd cc : Int) (f : File) :
    ∃ chunks : List (List Char),
      transferFile cd cc (some f) =
        some (Event.write cc validCommandText :: chunks.map (Event.write cd)) ∧
      chunks.flatten = f.delivered ∧ ∀ w ∈ chunks, w.length ≤ 512 := by
  obtain ⟨chunks, hs, hj, hb⟩ :=
    sendLoop_enough cd (f.delivered.length + 1) f.delivered (Nat.lt_succ_self _)
  exact ⟨chunks, by simp [transferFile, hs], hj, hb⟩

theorem writesOn_map_write (fd : Int) (chunks : List (List Char)) :
    writesOn fd (chunks.map (Event.write fd)) = chunks := by
  induction chunks with
  | nil => rfl
  | cons c cs ih => simp [writesOn, ih]

theorem writesOn_map_write_ne (fd fd' : Int) (h : fd' ≠ fd) (chunks : List (List Char)) :
    writesOn fd (chunks.map (Event.write fd')) = [] := by
  induction chunks with
  | nil => rfl
  | cons c cs ih => simp [writesOn, ih, h]

theorem writesOn_append (fd : Int) (xs ys : List Event) :
    writesOn fd (xs ++ ys) = writesOn fd xs ++ writesOn fd ys := by
  induction xs with
  | nil => rfl
  | cons e es ih =>
    cases e <;> simp [writesOn, ih]
    split <;> simp

/-- C2: for every file content, `transferFile` on an opened file whose reads
do not fail writes the Proceeding text on the control socket; the writes on
the data socket follow it, each carries at most 512 bytes, and their
concatenation in order is the content. -/
theorem transferFile_sends_content (clientDataSocket clientCommandSocket : Int)
    (content : List Char) :
    ∃ chunks : List (List Char),
      transferFile clientDataSocket clientCommandSocket (some ⟨content, none⟩) =
        some (Event.write clientCommandSocket (specStatusText .Proceeding) ::
          chunks.map (Event.write clientDataSocket)) ∧
      chunks.flatten = content ∧ ∀ w ∈ chunks, w.length ≤ 512 := by
  obtain ⟨chunks, h1, h2, h3⟩ :=
    transferFile_open clientDataSocket clientCommandSocket ⟨content, none⟩
  exact ⟨chunks, h1, h2, h3⟩

/-- C5 (amended): when the file cannot be opened, `transferFile` makes exactly
one call of `write`: on the control socket, with the FileNotFound literal of
the specification followed by one newline character; there is no write on
the data socket. -/
theorem transferFile_not_found (clientDataSocket clientCommandSocket : Int)
    (hdistinct : clientDataSocket ≠ clientCommandSocket) :
    transferFile clientDataSocket clientCommandSocket none =
        some [Event.write clientCommandSocket (specStatusText .FileNotFound ++ [NL])] ∧
      ∀ evs, transferFile clientDataSocket clientCommandSocket none = some evs →
        writesOn clientCommandSocket evs = [specStatusText .FileNotFound ++ [NL]] ∧
        writesOn clientDataSocket evs = [] := by
  have htext : fileNotFoundText = specStatusText .FileNotFound ++ [NL] := by decide
  have hrun : transferFile clientDataSocket clientCommandSocket none =
      some [Event.write clientCommandSocket (specStatusText .FileNotFound ++ [NL])] := by
    rw [← htext]; rfl
  refine ⟨hrun, ?_⟩
  intro evs h
  rw [hrun] at h
  have h' : evs = [Event.write clientCommandSocket (specStatusText .FileNotFound ++ [NL])] :=
    (Option.some.inj h).symm
  subst h'
  simp [writesOn, Ne.symm hdistinct]

theorem transferFile_not_found_witness :
    transferFile 6 4 none = some [Event.write 4 (specStatusText .FileNotFound ++ [NL])] ∧
      ∀ evs, transferFile 6 4 none = some evs →
        writesOn 4 evs = [specStatusText .FileNotFound ++ [NL]] ∧ writesOn 6 evs = [] :=
  transferFile_not_found 6 4 (by decide)

/-- C5 (counterexample): for a file that cannot be opened, the one write of
`transferFile` on the control socket (descriptor 4) does not carry the bare
FileNotFound literal of the specification: it carries 70 bytes, the 69 of
the literal and a newline. -/
theorem not_found_write_is_not_bare_literal :
    writesOn 4 ((transferFile 6 4 none).getD []) ≠ [specStatusText .FileNotFound] ∧
    (writesOn 4 ((transferFile 6 4 none).getD [])).map List.length = [70] ∧
    (specStatusText .FileNotFound).length = 69 := by
  decide

/-! ## listFiles -/

theorem cstring_of_no_nul : ∀ (s : List Char), NUL ∉ s → cstring s = s
  | [], _ => rfl
  | c :: cs, h => by
    have hc : c ≠ NUL := fun e => h (by simp [e])
    have hcs : NUL ∉ cs := fun e => h (by simp [e])
    simp [cstring, hc, cstring_of_no_nul cs hcs]

theorem specListing_cons (n : List Char) (ns : List (List Char)) :
    specListing (n :: ns) = n ++ NL :: specListing ns := by
  simp [specListing]

theorem appendEntries_fits :
    ∀ (names : List (List Char)) (message : List Char),
      (∀ n ∈ names, NUL ∉ n) →
      message.length + (specListing names).length ≤ 1023 →
      appendEntries names message = .ok (message ++ specListing names)
  | [], message, _, _ => by simp [appendEntries, specListing]
  | n :: ns, message, hn, hlen => by
    have hn0 : NUL ∉ n := hn n (by simp)
    have hns : ∀ m ∈ ns, NUL ∉ m := fun m hm => hn m (by simp [hm])
    rw [specListing_cons] at hlen ⊢
    simp only [List.length_append, List.length_cons] at hlen
    have hnl : cstring [NL] = [NL] := by decide
    have h1 : strcat 1024 message n = .ok (message ++ n) := by
      simp only [strcat, cstring_of_no_nul n hn0]
      rw [if_pos (by omega)]
    have h2 : strcat 1024 (message ++ n) [NL] = .ok (message ++ n ++ [NL]) := by
      simp only [strcat, hnl, List.length_append, List.length_singleton]
      rw [if_pos (by omega)]
    have ih := appendEntries_fits ns (message ++ n ++ [NL]) hns (by
      simp only [List.length_append, List.length_singleton]; omega)
    simp only [appendEntries, h1, h2, bind, Except.bind, ih]
    simp

theorem appendEntries_overrun :
    ∀ (names : List (List Char)) (message : List Char),
      (∀ n ∈ names, NUL ∉ n) →
      message.length ≤ 1023 →
      1023 < message.length + (specListing names).length →
      appendEntries names message = .error .overrun
  | [], message, _, h0, h => by
    simp [specListing] at h
    omega
  | n :: ns, message, hn, h0, hlen => by
    have hn0 : NUL ∉ n := hn n (by simp)
    have hns : ∀ m ∈ ns, NUL ∉ m := fun m hm => hn m (by simp [hm])
    rw [specListing_cons] at hlen
    simp only [List.length_append, List.length_cons] at hlen
    have hnl : cstring [NL] = [NL] := by decide
    by_cases hfit1 : message.length + n.length + 1 ≤ 1024
    · have h1 : strcat 1024 message n = .ok (message ++ n) := by
        simp only [strcat, cstring_of_no_nul n hn0]
        rw [if_pos hfit1]
      by_cases hfit2 : message.length + n.length + 1 + 1 ≤ 1024
      · have h2 : strcat 1024 (message ++ n) [NL] = .ok (message ++ n ++ [NL]) := by
          simp only [strcat, hnl, List.length_append, List.length_singleton]
          rw [if_pos hfit2]
        have ih := appendEntries_overrun ns (message ++ n ++ [NL]) hns
          (by simp only [List.length_append, List.length_singleton]; omega)
          (by simp only [List.length_append, List.length_singleton]; omega)
        simp only [appendEntries, h1, h2, bind, Except.bind, ih]
      · have h2 : strcat 1024 (message ++ n) [NL] = .error .overrun := by
          simp only [strcat, hnl, List.length_append, List.length_singleton]
          rw [if_neg hfit2]
        simp only [appendEntries, h1, h2, bind, Except.bind]
    · have h1 : strcat 1024 message n = .error .overrun := by
        simp only [strcat, cstring_of_no_nul n hn0]
        rw [if_neg hfit1]
      simp only [appendEntries, h1, bind, Except.bind]

theorem specListing_length_pos (n : List Char) (ns : List (List Char)) (h : n ≠ []) :
    2 ≤ (specListing (n :: ns)).length := by
  rw [specListing_cons]
  have : 0 < n.length := List.length_pos.mpr h
  simp only [List.length_append, List.length_cons]
  omega

/-- C7 (amended): for every sequence of entry names whose listing, each name
followed by one newline, takes at most 1023 bytes, `listFiles` first writes
the Proceeding text on the control socket and then makes one write on the
data socket: the listing when there is an entry, the text "The directory is
empty." when there is none. -/
theorem listFiles_sends_listing (clientDataSocket clientCommandSocket : Int)
    (names : List (List Char)) (hnames : ∀ n ∈ names, IsName n)
    (hfit : (specListing names).length ≤ 1023) :
    listFiles clientDataSocket clientCommandSocket (some names) =
      ([Event.write clientCommandSocket (specStatusText .Proceeding),
        Event.write clientDataSocket
          (if names = [] then "The directory is empty.".toList else specListing names)],
       none) := by
  have hnul : ∀ n ∈ names, NUL ∉ n := fun n hn => (hnames n hn).2
  have happ := appendEntries_fits names [] hnul (by simpa using hfit)
  simp only [List.nil_append] at happ
  cases names with
  | nil => simp [listFiles, happ, specListing, emptyDirectoryText, validCommandText, specStatusText]
  | cons n ns =>
    have h2 := specListing_length_pos n ns (hnames n (by simp)).1
    have hnot : ¬ (specListing (n :: ns)).length ≤ 1 := by omega
    simp [listFiles, happ, hnot, validCommandText, specStatusText]

theorem listFiles_sends_listing_witness :
    listFiles 6 4 (some [".".toList, "..".toList, "ftserver".toList]) =
      ([Event.write 4 (specStatusText .Proceeding),
        Event.write 6
          (if [".".toList, "..".toList, "ftserver".toList] = [] then
            "The directory is empty.".toList
           else specListing [".".toList, "..".toList, "ftserver".toList])],
       none) :=
  listFiles_sends_listing 6 4 [".".toList, "..".toList, "ftserver".toList]
    (by decide) (by decide)

theorem hugeDirectory_names :
    ∀ n ∈ hugeDirectory, IsName n ∧ 103 ≤ n.length ∧ n.length ≤ 255 := by
  intro n hn
  simp only [hugeDirectory, List.mem_map, List.mem_range] at hn
  obtain ⟨i, hi, rfl⟩ := hn
  have hlen : (hugeName i).length =
      (i % 50 + 1) + (i / 50 % 50 + 1) + (i / 2500 + 1) + 100 := by
    simp only [hugeName, List.length_append, List.length_replicate]
  refine ⟨⟨?_, ?_⟩, ?_, ?_⟩
  · intro h
    rw [h] at hlen
    simp at hlen
  · intro h
    simp only [hugeName, List.mem_append, List.mem_replicate] at h
    rcases h with ((h | h) | h) | h <;> exact absurd h.2 (by decide)
  · rw [hlen]; omega
  · rw [hlen]; omega

theorem hugeName_injective (i j : Nat) (h : hugeName i = hugeName j) : i = j := by
  have ha := congrArg (List.count 'a') h
  have hb := congrArg (List.count 'b') h
  have hc := congrArg (List.count 'c') h
  simp only [hugeName, List.count_append, List.count_replicate] at ha hb hc
  have e1 : ('a' == 'a') = true := by decide
  have e2 : ('b' == 'a') = false := by decide
  have e3 : ('c' == 'a') = false := by decide
  have e4 : ('d' == 'a') = false := by decide
  have e5 : ('a' == 'b') = false := by decide
  have e6 : ('b' == 'b') = true := by decide
  have e7 : ('c' == 'b') = false := by decide
  have e8 : ('d' == 'b') = false := by decide
  have e9 : ('a' == 'c') = false := by decide
  have e10 : ('b' == 'c') = false := by decide
  have e11 : ('c' == 'c') = true := by decide
  have e12 : ('d' == 'c') = false := by decide
  simp only [e1, e2, e3, e4, e5, e6, e7, e8, e9, e10, e11, e12, if_true,
    Bool.false_eq_true, if_false] at ha hb hc
  omega

theorem hugeDirectory_nodup : hugeDirectory.Nodup :=
  List.Nodup.map_on (fun i _ j _ h => hugeName_injective i j h) (List.nodup_range 125000)

theorem specListing_length_ge (k : Nat) :
    ∀ (names : List (List Char)), (∀ n ∈ names, k ≤ n.length) →
      names.length * (k + 1) ≤ (specListing names).length
  | [], _ => by simp
  | n :: ns, h => by
    have hn := h n (by simp)
    have ih := specListing_length_ge k ns (fun m hm => h m (by simp [hm]))
    rw [specListing_cons]
    simp only [List.length_append, List.length_cons]
    rw [Nat.add_mul]
    omega

theorem hugeDirectory_listing : 13000000 ≤ (specListing hugeDirectory).length := by
  have h := specListing_length_ge 103 hugeDirectory (fun n hn => (hugeDirectory_names n hn).2.1)
  have hl : hugeDirectory.length = 125000 := by simp [hugeDirectory]
  rw [hl] at h
  omega

theorem listFiles_overrun (cd cc : Int) (names : List (List Char))
    (hnul : ∀ n ∈ names, NUL ∉ n) (hbig : 1023 < (specListing names).length) :
    listFiles cd cc (some names) = ([Event.write cc validCommandText], some Fault.overrun) := by
  have h := appendEntries_overrun names [] hnul (by simp)
    (by simp only [List.length_nil]; omega)
  simp [listFiles, h]

/-- C7 (counterexample): a directory of 125000 distinct entry names, none
longer than 255 characters, has a listing of more than 13,000,000 bytes.
The array `message` holds 1024 bytes and lies on the stack: `strcat` writes
past it (and past the end of the stack), so `listFiles` does not make the one
write of the whole listing. -/
theorem listFiles_huge_directory :
    (∀ n ∈ hugeDirectory, IsName n ∧ n.length ≤ 255) ∧
    hugeDirectory.Nodup ∧
    13000000 ≤ (specListing hugeDirectory).length ∧
    listFiles 6 4 (some hugeDirectory) =
      ([Event.write 4 validCommandText], some Fault.overrun) ∧
    listFiles 6 4 (some hugeDirectory) ≠
      ([Event.write 4 (specStatusText .Proceeding),
        Event.write 6 (specListing hugeDirectory)], none) := by
  have hnul : ∀ n ∈ hugeDirectory, NUL ∉ n := fun n hn => (hugeDirectory_names n hn).1.2
  have hbig := hugeDirectory_listing
  have h := listFiles_overrun 6 4 hugeDirectory hnul (by omega)
  refine ⟨fun n hn => ⟨(hugeDirectory_names n hn).1, (hugeDirectory_names n hn).2.2⟩,
    hugeDirectory_nodup, hbig, h, ?_⟩
  rw [h]
  intro heq
  have h2 := congrArg Prod.snd heq
  exact absurd h2 (by simp)

/-! ## One pass of the loop -/

theorem listFiles_shape (cd cc : Int) (dir : Option (List (List Char)))
    (h : (listFiles cd cc dir).2 = none) :
    ∃ chunks : List (List Char),
      (listFiles cd cc dir).1 =
        Event.write cc validCommandText :: chunks.map (Event.write cd) := by
  cases dir with
  | none => exact ⟨[], rfl⟩
  | some names =>
    cases happ : appendEntries names [] with
    | error f => simp [listFiles, happ] at h
    | ok listing =>
      exact ⟨[if listing.length ≤ 1 then emptyDirectoryText else listing], by
        simp [listFiles, happ]⟩

theorem transferFile_shape (cd cc : Int) (file : Option File) :
    ∃ (status : List Char) (chunks : List (List Char)),
      transferFile cd cc file = some (Event.write cc status :: chunks.map (Event.write cd)) ∧
      (status = validCommandText ∨ status = fileNotFoundText) := by
  cases file with
  | none => exact ⟨fileNotFoundText, [], rfl, Or.inr rfl⟩
  | some f =>
    obtain ⟨chunks, h, _, _⟩ := transferFile_open cd cc f
    exact ⟨validCommandText, chunks, h, Or.inl rfl⟩

/-- The shape of every pass that reaches the end of the loop body. -/
theorem runSession_shape (l : Int) (env : Env) (cmd : Command) (sd : Int)
    (hacc : env.acceptCommand ≠ -1)
    (hdec : getClientCommand env.input = .ok cmd)
    (hlisten : env.listenOn cmd.dataPort = some sd)
    (hlist : cmd.action = 'l' →
      (listFiles env.acceptData env.acceptCommand env.directory).2 = none) :
    ∃ (status : List Char) (chunks : List (List Char)),
      runSession l env =
        ([Event.accept l env.acceptCommand, Event.createSocket cmd.dataPort (some sd),
          Event.accept sd env.acceptData, Event.write env.acceptCommand status] ++
          chunks.map (Event.write env.acceptData) ++
          [Event.close sd, Event.close env.acceptData, Event.close env.acceptCommand],
         Outcome.next) ∧
      (status = validCommandText ∨ status = fileNotFoundText ∨
        status = invalidCommandText) := by
  by_cases hl : cmd.action = 'l'
  · obtain ⟨chunks, hs⟩ := listFiles_shape env.acceptData env.acceptCommand env.directory
      (hlist hl)
    refine ⟨validCommandText, chunks, ?_, Or.inl rfl⟩
    have h2 := hlist hl
    rcases hlf : listFiles env.acceptData env.acceptCommand env.directory with ⟨evs, flt⟩
    rw [hlf] at hs h2
    simp only at hs h2
    subst hs h2
    simp [runSession, hacc, hdec, hlisten, hl, hlf]
  · by_cases hg : cmd.action = 'g'
    · obtain ⟨status, chunks, hs, hst⟩ := transferFile_shape env.acceptData env.acceptCommand
        (env.fopen (cstring cmd.fileName))
      refine ⟨status, chunks, ?_, ?_⟩
      · simp [runSession, hacc, hdec, hlisten, hl, hg, hs]
      · rcases hst with h | h
        · exact Or.inl h
        · exact Or.inr (Or.inl h)
    · refine ⟨invalidCommandText, [], ?_, Or.inr (Or.inr rfl)⟩
      simp [runSession, hacc, hdec, hlisten, hl, hg]

/-- When a pass reaches the end of the loop body, the command connection was
accepted, a command was decoded, the data listener was set up, and a listing,
if asked for, fitted its array. -/
theorem runSession_next_inv (l : Int) (env : Env)
    (h : (runSession l env).2 = Outcome.next) :
    ∃ (cmd : Command) (sd : Int),
      env.acceptCommand ≠ -1 ∧ getClientCommand env.input = .ok cmd ∧
      env.listenOn cmd.dataPort = some sd ∧
      (cmd.action = 'l' →
        (listFiles env.acceptData env.acceptCommand env.directory).2 = none) := by
  by_cases hacc : env.acceptCommand = -1
  · simp [runSession, hacc] at h
  · cases hdec : getClientCommand env.input with
    | error f => simp [runSession, hacc, hdec] at h
    | ok cmd =>
      cases hlisten : env.listenOn cmd.dataPort with
      | none => simp [runSession, hacc, hdec, hlisten] at h
      | some sd =>
        refine ⟨cmd, sd, hacc, rfl, hlisten, ?_⟩
        intro hl
        rcases hlf : listFiles env.acceptData env.acceptCommand env.directory with ⟨evs, flt⟩
        cases flt with
        | none => rfl
        | some f => simp [runSession, hacc, hdec, hlisten, hl, hlf] at h

/-- C8: in every pass of the loop of `runServer` that runs to its end, the
trace is `pre ++ write status :: post`, where `status` is one of the three
status texts and is written on the control socket, `pre` holds no write on
the control or the data socket, and `post` holds no write on the control
socket: exactly one status reply is written, and it precedes every write on
the data socket. -/
theorem session_one_status_before_data (l : Int) (env : Env)
    (hnext : (runSession l env).2 = Outcome.next)
    (hdistinct : env.acceptData ≠ env.acceptCommand) :
    (writesOn env.acceptCommand (runSession l env).1).length = 1 ∧
    ∃ (status : List Char) (pre post : List Event),
      (runSession l env).1 = pre ++ Event.write env.acceptCommand status :: post ∧
      (status = validCommandText ∨ status = fileNotFoundText ∨
        status = invalidCommandText) ∧
      writesOn env.acceptCommand pre = [] ∧ writesOn env.acceptData pre = [] ∧
      writesOn env.acceptCommand post = [] := by
  obtain ⟨cmd, sd, hacc, hdec, hlisten, hlist⟩ := runSession_next_inv l env hnext
  obtain ⟨status, chunks, hrun, hst⟩ := runSession_shape l env cmd sd hacc hdec hlisten hlist
  have hpost : writesOn env.acceptCommand
      (chunks.map (Event.write env.acceptData) ++
        [Event.close sd, Event.close env.acceptData, Event.close env.acceptCommand]) = [] := by
    rw [writesOn_append, writesOn_map_write_ne _ _ hdistinct]
    simp [writesOn]
  have htrace : (runSession l env).1 =
      [Event.accept l env.acceptCommand, Event.createSocket cmd.dataPort (some sd),
        Event.accept sd env.acceptData] ++ Event.write env.acceptCommand status ::
      (chunks.map (Event.write env.acceptData) ++
        [Event.close sd, Event.close env.acceptData, Event.close env.acceptCommand]) := by
    rw [hrun]; simp
  refine ⟨?_, status, _, _, htrace, hst, ?_, ?_, hpost⟩
  · rw [htrace, writesOn_append]
    simp only [writesOn, if_true, hpost]
    rfl
  · simp [writesOn]
  · simp [writesOn]

set_option maxRecDepth 100000 in
theorem sample_get_decodes :
    getClientCommand (sampleEnv "-g 30021 notes.txt".toList).input =
      .ok ⟨'g', 30021, "notes.txt".toList ++ List.replicate 503 NUL⟩ := by
  decide

set_option maxRecDepth 100000 in
theorem sample_get_runs :
    runSession 3 (sampleEnv "-g 30021 notes.txt".toList) =
      ([Event.accept 3 4, Event.createSocket 30021 (some 5), Event.accept 5 6,
        Event.write 4 validCommandText, Event.write 6 "hello".toList, Event.write 6 [],
        Event.close 5, Event.close 6, Event.close 4], Outcome.next) := by
  decide

theorem session_one_status_before_data_witness :
    (runSession 3 (sampleEnv "-g 30021 notes.txt".toList)).2 = Outcome.next ∧
    (writesOn (sampleEnv "-g 30021 notes.txt".toList).acceptCommand
      (runSession 3 (sampleEnv "-g 30021 notes.txt".toList)).1).length = 1 ∧
    ∃ (status : List Char) (pre post : List Event),
      (runSession 3 (sampleEnv "-g 30021 notes.txt".toList)).1 =
        pre ++ Event.write (sampleEnv "-g 30021 notes.txt".toList).acceptCommand status
          :: post ∧
      (status = validCommandText ∨ status = fileNotFoundText ∨
        status = invalidCommandText) ∧
      writesOn (sampleEnv "-g 30021 notes.txt".toList).acceptCommand pre = [] ∧
      writesOn (sampleEnv "-g 30021 notes.txt".toList).acceptData pre = [] ∧
      writesOn (sampleEnv "-g 30021 notes.txt".toList).acceptCommand post = [] :=
  ⟨by rw [sample_get_runs],
    session_one_status_before_data 3 (sampleEnv "-g 30021 notes.txt".toList)
      (by rw [sample_get_runs]) (by decide)⟩

/-! ## The loop of runServer -/

theorem runServer_next (l : Int) (env : Env) (rest : List Env) (evs : List Event)
    (h : runSession l env = (evs, Outcome.next)) :
    runServer l (env :: rest) = (evs ++ (runServer l rest).1, (runServer l rest).2) := by
  simp [runServer, h]

theorem runServer_fault (l : Int) (env : Env) (rest : List Env) (evs : List Event)
    (f : Fault) (h : runSession l env = (evs, Outcome.fault f)) :
    runServer l (env :: rest) = (evs, Outcome.fault f) := by
  simp [runServer, h]

/-- C9 (amended): in a session whose command was decoded, when `createSocket`
fails for the data port the server process ends in `exit(1)` and no further
client is accepted; when only the `accept` of the data connection fails
(result -1) and, for a list command, the listing fits the array `message`,
the pass runs to its end and `runServer` goes on to `accept` the next client
on the control listener. -/
theorem data_socket_failures (l : Int) (env next : Env) (cmd : Command)
    (rest : List Env)
    (hacc : env.acceptCommand ≠ -1)
    (hdec : getClientCommand env.input = .ok cmd) :
    (env.listenOn cmd.dataPort = none →
      runServer l (env :: next :: rest) =
        ([Event.accept l env.acceptCommand, Event.createSocket cmd.dataPort none],
          Outcome.fault Fault.exit1)) ∧
    (∀ sd, env.listenOn cmd.dataPort = some sd → env.acceptData = -1 →
      (cmd.action = 'l' →
        (listFiles env.acceptData env.acceptCommand env.directory).2 = none) →
      ∃ evs tail,
        runSession l env = (evs, Outcome.next) ∧
        (runServer l (env :: next :: rest)).1 =
          evs ++ Event.accept l next.acceptCommand :: tail) := by
  constructor
  · intro hnone
    apply runServer_fault
    simp [runSession, hacc, hdec, hnone]
  · intro sd hsome _ hlist
    obtain ⟨status, chunks, hrun, _⟩ := runSession_shape l env cmd sd hacc hdec hsome hlist
    refine ⟨_, ((runSession l next).1.tail ++
      (match (runSession l next).2 with
        | Outcome.next => (runServer l rest).1
        | _ => [])), hrun, ?_⟩
    rw [runServer_next l env (next :: rest) _ hrun]
    have hhead : ∃ t, (runSession l next).1 = Event.accept l next.acceptCommand :: t := by
      unfold runSession
      simp only
      split
      · exact ⟨_, rfl⟩
      · split
        · exact ⟨_, rfl⟩
        · split
          · exact ⟨_, rfl⟩
          · split
            · split <;> exact ⟨_, rfl⟩
            · split
              · split <;> exact ⟨_, rfl⟩
              · exact ⟨_, rfl⟩
    obtain ⟨t, ht⟩ := hhead
    rcases hn : runSession l next with ⟨evs2, o⟩
    rw [hn] at ht
    simp only at ht
    subst ht
    cases o <;> simp [runServer, hn]

set_option maxRecDepth 100000 in
theorem sample_list_decodes :
    getClientCommand (sampleEnv "-l 30021 x".toList).input =
      .ok ⟨'l', 30021, "x".toList ++ List.replicate 511 NUL⟩ := by
  decide

theorem data_socket_failures_witness :
    ({ sampleEnv "-l 30021 x".toList with acceptData := -1 } : Env).listenOn 30021 = some 5 ∧
    ({ sampleEnv "-l 30021 x".toList with acceptData := -1 } : Env).acceptData = -1 ∧
    ∃ evs tail,
      runSession 3 { sampleEnv "-l 30021 x".toList with acceptData := -1 } =
        (evs, Outcome.next) ∧
      (runServer 3 [{ sampleEnv "-l 30021 x".toList with acceptData := -1 },
          sampleEnv "-g 30021 notes.txt".toList]).1 =
        evs ++ Event.accept 3 (sampleEnv "-g 30021 notes.txt".toList).acceptCommand :: tail :=
  ⟨rfl, rfl, (data_socket_failures 3
    { sampleEnv "-l 30021 x".toList with acceptData := -1 }
    (sampleEnv "-g 30021 notes.txt".toList)
    ⟨'l', 30021, "x".toList ++ List.replicate 511 NUL⟩ []
    (by decide) sample_list_decodes).2 5 rfl rfl (by decide)⟩

/-- C9 (counterexample): the data port cannot be bound (`createSocket` fails):
the server ends in `exit(1)`, and the second client is never accepted. -/
theorem bind_failure_exits :
    runServer 3 [{ sampleEnv "-l 30021 x".toList with listenOn := fun _ => none },
        sampleEnv "-l 30021 x".toList] =
      ([Event.accept 3 4, Event.createSocket 30021 none], Outcome.fault Fault.exit1) := by
  decide

/-- C3 (the code at the failing input): for the command `-x 30021 f`, whose
second character is neither l nor g, `runServer` calls `createSocket` for the
data port and accepts the data connection before it writes the invalid-command
text on the control socket. -/
theorem invalid_command_creates_data_socket :
    runSession 3 (sampleEnv "-x 30021 f".toList) =
      ([Event.accept 3 4, Event.createSocket 30021 (some 5), Event.accept 5 6,
        Event.write 4 invalidCommandText,
        Event.close 5, Event.close 6, Event.close 4], Outcome.next) ∧
    createdPorts (runSession 3 (sampleEnv "-x 30021 f".toList)).1 = [30021] := by
  decide

/-! ## The status texts on the wire -/

theorem listFiles_head (cd cc : Int) (dir : Option (List (List Char))) :
    (listFiles cd cc dir).1.head? = some (Event.write cc validCommandText) := by
  cases dir with
  | none => rfl
  | some names =>
    cases happ : appendEntries names [] with
    | error f => simp [listFiles, happ]
    | ok listing => simp [listFiles, happ]

/-- C6 (amended): the Proceeding text that `listFiles` and `transferFile`
write on the control socket is exactly "VALID_COMMAND"; the FileNotFound
text of `transferFile` and the InvalidCommand text of `runServer` are the
literals of the specification followed by one newline character. -/
theorem status_texts_written (l : Int) (env : Env) (cmd : Command) (sd : Int)
    (cd cc : Int) (file : File) (dir : Option (List (List Char)))
    (hacc : env.acceptCommand ≠ -1)
    (hdec : getClientCommand env.input = .ok cmd)
    (hlisten : env.listenOn cmd.dataPort = some sd)
    (hl : cmd.action ≠ 'l') (hg : cmd.action ≠ 'g') :
    writesOn env.acceptCommand (runSession l env).1 =
      [specStatusText .InvalidCommand ++ [NL]] ∧
    transferFile cd cc none =
      some [Event.write cc (specStatusText .FileNotFound ++ [NL])] ∧
    (∃ evs, transferFile cd cc (some file) =
      some (Event.write cc (specStatusText .Proceeding) :: evs)) ∧
    (listFiles cd cc dir).1.head? = some (Event.write cc (specStatusText .Proceeding)) := by
  refine ⟨?_, ?_, ?_, listFiles_head cd cc dir⟩
  · have h1 : invalidCommandText = specStatusText .InvalidCommand ++ [NL] := by decide
    simp [runSession, hacc, hdec, hlisten, hl, hg, writesOn, h1]
  · have h2 : fileNotFoundText = specStatusText .FileNotFound ++ [NL] := by decide
    simp [transferFile, h2]
  · obtain ⟨chunks, h, _, _⟩ := transferFile_open cd cc file
    exact ⟨_, h⟩

set_option maxRecDepth 100000 in
theorem sample_invalid_decodes :
    getClientCommand (sampleEnv "-x 30021 f".toList).input =
      .ok ⟨'x', 30021, "f".toList ++ List.replicate 511 NUL⟩ := by
  decide

theorem status_texts_written_witness :
    writesOn (sampleEnv "-x 30021 f".toList).acceptCommand
        (runSession 3 (sampleEnv "-x 30021 f".toList)).1 =
      [specStatusText .InvalidCommand ++ [NL]] ∧
    transferFile 6 4 none =
      some [Event.write 4 (specStatusText .FileNotFound ++ [NL])] ∧
    (∃ evs, transferFile 6 4 (some ⟨"hello".toList, none⟩) =
      some (Event.write 4 (specStatusText .Proceeding) :: evs)) ∧
    (listFiles 6 4 (some [".".toList])).1.head? =
      some (Event.write 4 (specStatusText .Proceeding)) :=
  status_texts_written 3 (sampleEnv "-x 30021 f".toList)
    ⟨'x', 30021, "f".toList ++ List.replicate 511 NUL⟩ 5 6 4 ⟨"hello".toList, none⟩
    (some [".".toList]) (by decide) sample_invalid_decodes rfl (by decide) (by decide)

/-- C6 (counterexample): what `transferFile` writes for a file that cannot be
opened, and what `runServer` writes for the command `-x 30021 f`, are not the
bare literals of the specification: a newline character follows them. -/
theorem status_texts_not_bare :
    transferFile 6 4 none ≠ some [Event.write 4 (specStatusText .FileNotFound)] ∧
    writesOn 4 (runSession 3 (sampleEnv "-x 30021 f".toList)).1 ≠
      [specStatusText .InvalidCommand] := by
  decide

/-! ## strtok -/

theorem skipDelims_delims :
    ∀ (d rest : List Char), IsDelims d → skipDelims (d ++ rest) = skipDelims rest
  | [], _, _ => rfl
  | c :: cs, rest, h => by
    have hc : isDelim c = true := h c (by simp)
    have hcs : IsDelims cs := fun x hx => h x (by simp [hx])
    simp [skipDelims, hc, skipDelims_delims cs rest hcs]

theorem isDelim_NUL : isDelim NUL = false := by decide

theorem scanToken_token :
    ∀ (t : List Char) (c : Char) (rest : List Char),
      (∀ x ∈ t, isDelim x = false ∧ x ≠ NUL) → (c = NUL ∨ isDelim c = true) →
      scanToken (t ++ c :: rest) = some (t, if c = NUL then c :: rest else rest)
  | [], c, rest, _, hc => by
    by_cases h : c = NUL
    · simp [scanToken, h]
    · have hd : isDelim c = true := hc.resolve_left h
      simp [scanToken, h, hd]
  | x :: xs, c, rest, ht, hc => by
    have hx := ht x (by simp)
    have hxs : ∀ y ∈ xs, isDelim y = false ∧ y ≠ NUL := fun y hy => ht y (by simp [hy])
    simp [scanToken, hx.1, hx.2, scanToken_token xs c rest hxs hc]

theorem strtok_token (lead t : List Char) (c : Char) (rest : List Char)
    (hlead : IsDelims lead) (ht : IsToken t) (hc : c = NUL ∨ isDelim c = true) :
    strtok (lead ++ t ++ c :: rest) =
      .ok (some t, if c = NUL then c :: rest else rest) := by
  obtain ⟨hne, hall⟩ := ht
  cases t with
  | nil => exact absurd rfl hne
  | cons x xs =>
    have hx := hall x (by simp)
    have hskip : skipDelims (lead ++ (x :: xs) ++ c :: rest) = x :: (xs ++ c :: rest) := by
      rw [List.append_assoc, skipDelims_delims _ _ hlead]
      simp [skipDelims, hx.1]
    have hscan := scanToken_token (x :: xs) c rest hall hc
    simp only [List.cons_append] at hscan
    simp only [strtok, hskip, hx.2, if_false, hscan]

/-! ## atoi -/

theorem isDigit_not_space (c : Char) (h : c.isDigit = true) :
    isSpace c = false ∧ c ≠ '-' ∧ c ≠ '+' := by
  refine ⟨?_, ?_, ?_⟩
  · by_contra hs
    simp only [isSpace, Bool.not_eq_false, Bool.or_eq_true, beq_iff_eq] at hs
    rcases hs with ((((hs | hs) | hs) | hs) | hs) | hs <;> subst hs <;> revert h <;> decide
  · rintro rfl; revert h; decide
  · rintro rfl; revert h; decide

theorem digitsValue_digits :
    ∀ (s : List Char) (acc : Nat), (∀ c ∈ s, c.isDigit = true) →
      digitsValue acc s = s.foldl (fun n c => 10 * n + (c.toNat - 48)) acc
  | [], _, _ => rfl
  | c :: cs, acc, h => by
    have hc := h c (by simp)
    have hcs : ∀ x ∈ cs, x.isDigit = true := fun x hx => h x (by simp [hx])
    simp [digitsValue, hc, digitsValue_digits cs _ hcs]

theorem strtol_digits (s : List Char) (hne : s ≠ []) (h : ∀ c ∈ s, c.isDigit = true) :
    strtol s = min (2 ^ 63 - 1 : Int) (decimalValue s : Int) := by
  cases s with
  | nil => exact absurd rfl hne
  | cons c cs =>
    obtain ⟨h1, h2, h3⟩ := isDigit_not_space c (h c (by simp))
    have hv := digitsValue_digits (c :: cs) 0 h
    simp only [strtol, List.dropWhile, h1, h2, h3, if_false, hv, decimalValue]

theorem atoi_digits (s : List Char) (hne : s ≠ []) (h : ∀ c ∈ s, c.isDigit = true)
    (hfit : decimalValue s < 2 ^ 31) :
    atoi (some s) = .ok (decimalValue s : Int) := by
  have hv : ((decimalValue s : Nat) : Int) < 2147483648 := by
    have : (2 : Nat) ^ 31 = 2147483648 := by norm_num
    omega
  have h0 : (0 : Int) ≤ (decimalValue s : Int) := Int.ofNat_nonneg _
  simp only [atoi, strtol_digits s hne h, toInt32]
  congr 1
  have e63 : (2 : Int) ^ 63 - 1 = 9223372036854775807 := by norm_num
  have e31 : (2 : Int) ^ 31 = 2147483648 := by norm_num
  have e32 : (2 : Int) ^ 32 = 4294967296 := by norm_num
  rw [e63, e31, e32, min_eq_right (by omega)]
  omega

/-! ## getClientCommand -/

theorem readInto_short (msg : List Char) (h : msg.length < 512) :
    readInto 512 msg = msg ++ NUL :: List.replicate (511 - msg.length) NUL := by
  have h1 : msg.take 512 = msg := List.take_of_length_le (by omega)
  have h2 : 512 - msg.length = (511 - msg.length) + 1 := by omega
  rw [readInto, h1, h2, List.replicate_succ]

theorem cstring_padded :
    ∀ (s : List Char) (k : Nat), NUL ∉ s → cstring (s ++ List.replicate k NUL) = s
  | [], k, _ => by
    cases k with
    | zero => rfl
    | succ n => simp [List.replicate_succ, cstring]
  | c :: cs, k, h => by
    have hc : c ≠ NUL := fun e => h (by simp [e])
    have hcs : NUL ∉ cs := fun e => h (by simp [e])
    simp [cstring, hc, cstring_padded cs k hcs]

theorem second_char_of_cmd (a : List Char) :
    (a.take 3 ++ List.replicate (3 - a.length) NUL).getD 1 NUL = a.getD 1 NUL := by
  cases a with
  | nil => rfl
  | cons x xs =>
    cases xs with
    | nil => rfl
    | cons y ys => simp

theorem token_no_nul (t : List Char) (h : IsToken t) : NUL ∉ t :=
  fun hm => (h.2 NUL hm).2 rfl

/-- What `runServer` does with a decoded command once the control connection
is accepted and the data listener is set up. -/
theorem runSession_dispatch (l : Int) (env : Env) (cmd : Command) (sd : Int)
    (hacc : env.acceptCommand ≠ -1)
    (hdec : getClientCommand env.input = .ok cmd)
    (hlisten : env.listenOn cmd.dataPort = some sd) :
    (cmd.action = 'l' →
      (runSession l env).1 =
        setupEvents l env cmd.dataPort sd ++
          (listFiles env.acceptData env.acceptCommand env.directory).1 ++
          (if (listFiles env.acceptData env.acceptCommand env.directory).2 = none
            then closeEvents env sd else [])) ∧
    (cmd.action = 'g' →
      ∃ evs, transferFile env.acceptData env.acceptCommand
          (env.fopen (cstring cmd.fileName)) = some evs ∧
        runSession l env =
          (setupEvents l env cmd.dataPort sd ++ evs ++ closeEvents env sd, Outcome.next)) ∧
    (cmd.action ≠ 'l' → cmd.action ≠ 'g' →
      runSession l env =
        (setupEvents l env cmd.dataPort sd ++
          [Event.write env.acceptCommand (specStatusText .InvalidCommand ++ [NL])] ++
          closeEvents env sd, Outcome.next)) := by
  refine ⟨?_, ?_, ?_⟩
  · intro hl
    rcases hlf : listFiles env.acceptData env.acceptCommand env.directory with ⟨evs, flt⟩
    cases flt <;>
      simp [runSession, hacc, hdec, hlisten, hl, hlf, setupEvents, closeEvents]
  · intro hg
    have hl : cmd.action ≠ 'l' := by rw [hg]; decide
    obtain ⟨status, chunks, hs, _⟩ := transferFile_shape env.acceptData env.acceptCommand
      (env.fopen (cstring cmd.fileName))
    refine ⟨_, hs, ?_⟩
    simp [runSession, hacc, hdec, hlisten, hl, hg, hs, setupEvents, closeEvents]
  · intro hl hg
    have h1 : invalidCommandText = specStatusText .InvalidCommand ++ [NL] := by decide
    simp [runSession, hacc, hdec, hlisten, hl, hg, setupEvents, closeEvents, h1]

/-- C1 (amended): for every control message of fewer than 512 bytes made of
an action token, a port token and a file-name token, separated by spaces or
newlines (runs of them may also lead and trail), `getClientCommand` returns
the second character of the action token (NUL when the token has only one
character), stores the whole third token as the string in `fileName`, and,
when the port token is a string of decimal digits whose value is below 2^31,
stores that value in `dataPort`.  Once the control connection is accepted
and the data listener is set up, `runServer` runs `listFiles` exactly when
that character is l, `transferFile` on the file named by the third token
exactly when it is g, and writes the invalid-command text for every other
character. -/
theorem getClientCommand_three_tokens
    (lead action sep1 port sep2 file trail : List Char)
    (hlead : IsDelims lead) (haction : IsToken action)
    (hsep1 : IsDelims sep1) (hsep1ne : sep1 ≠ [])
    (hport : IsToken port)
    (hsep2 : IsDelims sep2) (hsep2ne : sep2 ≠ [])
    (hfile : IsToken file) (htrail : IsDelims trail)
    (hlen : (lead ++ action ++ sep1 ++ port ++ sep2 ++ file ++ trail).length < 512) :
    ∃ cmd : Command,
      getClientCommand (some (lead ++ action ++ sep1 ++ port ++ sep2 ++ file ++ trail)) =
        .ok cmd ∧
      cmd.action = action.getD 1 NUL ∧
      cstring cmd.fileName = file ∧
      atoi (some port) = .ok cmd.dataPort ∧
      ((∀ c ∈ port, c.isDigit = true) → decimalValue port < 2 ^ 31 →
        cmd.dataPort = (decimalValue port : Int)) ∧
      ∀ (l : Int) (env : Env) (sd : Int),
        env.input = some (lead ++ action ++ sep1 ++ port ++ sep2 ++ file ++ trail) →
        env.acceptCommand ≠ -1 → env.listenOn cmd.dataPort = some sd →
        (action.getD 1 NUL = 'l' →
          (runSession l env).1 =
            setupEvents l env cmd.dataPort sd ++
              (listFiles env.acceptData env.acceptCommand env.directory).1 ++
              (if (listFiles env.acceptData env.acceptCommand env.directory).2 = none
                then closeEvents env sd else [])) ∧
        (action.getD 1 NUL = 'g' →
          ∃ evs, transferFile env.acceptData env.acceptCommand (env.fopen file) = some evs ∧
            runSession l env =
              (setupEvents l env cmd.dataPort sd ++ evs ++ closeEvents env sd,
                Outcome.next)) ∧
        (action.getD 1 NUL ≠ 'l' → action.getD 1 NUL ≠ 'g' →
          runSession l env =
            (setupEvents l env cmd.dataPort sd ++
              [Event.write env.acceptCommand (specStatusText .InvalidCommand ++ [NL])] ++
              closeEvents env sd, Outcome.next)) := by
  obtain ⟨d1, s1, rfl⟩ : ∃ d s, sep1 = d :: s := List.exists_cons_of_ne_nil hsep1ne
  obtain ⟨d2, s2, rfl⟩ : ∃ d s, sep2 = d :: s := List.exists_cons_of_ne_nil hsep2ne
  have hd1 : isDelim d1 = true := hsep1 d1 (by simp)
  have hd2 : isDelim d2 = true := hsep2 d2 (by simp)
  have hs1 : IsDelims s1 := fun x hx => hsep1 x (by simp [hx])
  have hs2 : IsDelims s2 := fun x hx => hsep2 x (by simp [hx])
  have hd1n : d1 ≠ NUL := by rintro rfl; rw [isDelim_NUL] at hd1; cases hd1
  have hd2n : d2 ≠ NUL := by rintro rfl; rw [isDelim_NUL] at hd2; cases hd2
  have hfl : file.length < 512 := by
    simp only [List.length_append] at hlen; omega
  obtain ⟨c, tl, hc, htl⟩ : ∃ (c : Char) (tl : List Char), (c = NUL ∨ isDelim c = true) ∧
      trail ++ NUL :: List.replicate
        (511 - (lead ++ action ++ d1 :: s1 ++ port ++ d2 :: s2 ++ file ++ trail).length) NUL
        = c :: tl := by
    cases trail with
    | nil => exact ⟨NUL, _, Or.inl rfl, rfl⟩
    | cons t ts => exact ⟨t, _, Or.inr (htrail t (by simp)), rfl⟩
  have hbuf : readInto 512 (lead ++ action ++ d1 :: s1 ++ port ++ d2 :: s2 ++ file ++ trail) =
      lead ++ action ++ d1 :: (s1 ++ port ++ d2 :: (s2 ++ file ++ c :: tl)) := by
    rw [readInto_short _ hlen, ← htl]
    simp [List.append_assoc]
  have hk1 := strtok_token lead action d1 (s1 ++ port ++ d2 :: (s2 ++ file ++ c :: tl))
    hlead haction (Or.inr hd1)
  have hk2 := strtok_token s1 port d2 (s2 ++ file ++ c :: tl) hs1 hport (Or.inr hd2)
  have hk3 := strtok_token s2 file c tl hs2 hfile hc
  rw [if_neg hd1n] at hk1
  rw [if_neg hd2n] at hk2
  have htake : file.take 512 = file := List.take_of_length_le (by omega)
  have hname : cstring (file ++ List.replicate (512 - file.length) NUL) = file :=
    cstring_padded file _ (token_no_nul file hfile)
  have hdec : getClientCommand
      (some (lead ++ action ++ d1 :: s1 ++ port ++ d2 :: s2 ++ file ++ trail)) =
      .ok ⟨action.getD 1 NUL, toInt32 (strtol port),
        file ++ List.replicate (512 - file.length) NUL⟩ := by
    simp only [getClientCommand, hbuf, hk1, hk2, hk3, bind, Except.bind, strncpy, atoi,
      pure, Except.pure, second_char_of_cmd, htake]
  refine ⟨⟨action.getD 1 NUL, toInt32 (strtol port),
    file ++ List.replicate (512 - file.length) NUL⟩, hdec, rfl, hname, rfl, ?_, ?_⟩
  · intro hdig hfit
    have := atoi_digits port hport.1 hdig hfit
    simp only [atoi, Except.ok.injEq] at this
    exact this
  · intro l env sd hin hacc hlisten
    have hdec' := hdec
    rw [← hin] at hdec'
    have hd := runSession_dispatch l env _ sd hacc hdec' hlisten
    simp only [hname] at hd
    exact hd

set_option maxRecDepth 100000 in
theorem sample_list_names_decodes :
    listFiles 6 4 (some [".".toList, "..".toList, "notes.txt".toList]) =
      ([Event.write 4 validCommandText, Event.write 6 ".\n..\nnotes.txt\n".toList], none) := by
  decide

theorem getClientCommand_three_tokens_witness :
    ∃ cmd : Command,
      getClientCommand (some ([] ++ "-l".toList ++ " ".toList ++ "30021".toList ++
        " ".toList ++ "notes.txt".toList ++ "\n".toList)) = .ok cmd ∧
      cmd.action = 'l' ∧
      cstring cmd.fileName = "notes.txt".toList ∧
      cmd.dataPort = 30021 ∧
      (runSession 3 (sampleEnv ([] ++ "-l".toList ++ " ".toList ++ "30021".toList ++
        " ".toList ++ "notes.txt".toList ++ "\n".toList))).1 =
        setupEvents 3 (sampleEnv []) cmd.dataPort 5 ++
          [Event.write 4 validCommandText, Event.write 6 ".\n..\nnotes.txt\n".toList] ++
          closeEvents (sampleEnv []) 5 :=
  let ⟨cmd, h1, h2, h3, _, h5, h6⟩ :=
    getClientCommand_three_tokens [] "-l".toList " ".toList "30021".toList " ".toList
      "notes.txt".toList "\n".toList (by decide) (by decide) (by decide) (by decide)
      (by decide) (by decide) (by decide) (by decide) (by decide) (by decide)
  ⟨cmd, h1, h2, h3, (h5 (by decide) (by decide)).trans (by decide),
    by
      have hd := (h6 3 (sampleEnv ([] ++ "-l".toList ++ " ".toList ++ "30021".toList ++
        " ".toList ++ "notes.txt".toList ++ "\n".toList)) 5 rfl (by decide) rfl).1 rfl
      rw [hd]
      show _ ++ (listFiles 6 4 (some [".".toList, "..".toList, "notes.txt".toList])).1 ++
        (if (listFiles 6 4 (some [".".toList, "..".toList, "notes.txt".toList])).2 = none
          then _ else _) = _
      rw [sample_list_names_decodes]
      rfl⟩

theorem scanToken_no_end :
    ∀ t : List Char, (∀ x ∈ t, isDelim x = false ∧ x ≠ NUL) → scanToken t = none
  | [], _ => rfl
  | x :: xs, h => by
    have hx := h x (by simp)
    have hxs : ∀ y ∈ xs, isDelim y = false ∧ y ≠ NUL := fun y hy => h y (by simp [hy])
    simp [scanToken, hx.1, hx.2, scanToken_no_end xs hxs]

theorem strtok_no_end (t : List Char) (ht : IsToken t) :
    strtok t = .error Fault.overrun := by
  obtain ⟨hne, hall⟩ := ht
  cases t with
  | nil => exact absurd rfl hne
  | cons x xs =>
    have hx := hall x (by simp)
    have hscan := scanToken_no_end (x :: xs) hall
    simp only [strtok, skipDelims, hx.1]
    show (if x = NUL then _ else _) = _
    rw [if_neg hx.2, hscan]

theorem replicate_a_token (n : Nat) : IsToken (List.replicate (n + 1) 'a') := by
  refine ⟨by simp [List.replicate_succ], ?_⟩
  intro c hc
  have := List.eq_of_mem_replicate hc
  subst this
  decide

theorem long_message_overruns :
    getClientCommand (some ("-g 30021 ".toList ++ List.replicate 600 'a')) =
      .error Fault.overrun := by
  have hbuf : readInto 512 ("-g 30021 ".toList ++ List.replicate 600 'a') =
      [] ++ "-g".toList ++ ' ' :: ([] ++ "30021".toList ++ ' ' :: List.replicate 503 'a') := by
    have h600 : List.replicate 600 'a' = List.replicate 503 'a' ++ List.replicate 97 'a' := by
      rw [← List.replicate_add]
    have hlen : ("-g 30021 ".toList ++ List.replicate 503 'a').length = 512 := by
      rw [List.length_append, List.length_replicate]; rfl
    have hzero : 512 - ("-g 30021 ".toList ++ List.replicate 503 'a' ++
        List.replicate 97 'a').length = 0 := by
      rw [List.length_append, List.length_replicate, hlen]
    rw [readInto, h600, ← List.append_assoc, List.take_left' hlen, hzero,
      List.replicate_zero, List.append_nil]
    rfl
  have hk1 := strtok_token [] "-g".toList ' ' ([] ++ "30021".toList ++ ' ' :: List.replicate 503 'a')
    (by decide) (by decide) (by decide)
  have hk2 := strtok_token [] "30021".toList ' ' (List.replicate 503 'a')
    (by decide) (by decide) (by decide)
  have hk3 := strtok_no_end (List.replicate 503 'a') (replicate_a_token 502)
  rw [if_neg (by decide)] at hk1 hk2
  simp only [getClientCommand, hbuf, hk1, hk2, hk3, bind, Except.bind, strncpy, atoi]

set_option maxRecDepth 100000 in
theorem large_port_decodes :
    getClientCommand (some "-l 2147483648 f".toList) =
      .ok ⟨'l', -2147483648, "f".toList ++ List.replicate 511 NUL⟩ := by
  decide

/-- C1 (counterexample): (1) for a message whose file-name token has 600
characters, `read` stores only 512 bytes, and no command whose `fileName` is
that token is returned; (2) for the port token 2147483648, a string of
decimal digits, `dataPort` is not its base-10 value (an `int` cannot hold
it); (3) for the message `-l 30021 x`, whose second character is l, when
the data port cannot be bound the pass ends in `exit(1)` inside
`createSocket` and `listFiles` is not run. -/
theorem three_tokens_not_always_decoded :
    (IsToken (List.replicate 600 'a') ∧
      ¬ ∃ cmd : Command,
        getClientCommand (some ("-g 30021 ".toList ++ List.replicate 600 'a')) = .ok cmd ∧
        cstring cmd.fileName = List.replicate 600 'a') ∧
    ((∀ c ∈ "2147483648".toList, c.isDigit = true) ∧
      ∃ cmd : Command,
        getClientCommand (some "-l 2147483648 f".toList) = .ok cmd ∧
        cmd.dataPort ≠ (decimalValue "2147483648".toList : Int)) ∧
    runSession 3 { sampleEnv "-l 30021 x".toList with listenOn := fun _ => none } =
      ([Event.accept 3 4, Event.createSocket 30021 none], Outcome.fault Fault.exit1) := by
  refine ⟨⟨replicate_a_token 599, ?_⟩, ⟨by decide, _, large_port_decodes, by decide⟩,
    by decide⟩
  rintro ⟨cmd, h, _⟩
  rw [long_message_overruns] at h
  cases h

/-- C4 (the code at the failing input): for the message `-l 30021`, which has
no file-name token, the third `strtok` returns NULL and `getClientCommand`
passes it to `strncpy`: the pass of the server loop ends there, in undefined
behaviour, and no command is returned. -/
theorem list_without_file_name :
    getClientCommand (some "-l 30021".toList) = .error Fault.nullDeref ∧
    runSession 3 (sampleEnv "-l 30021".toList) =
      ([Event.accept 3 4], Outcome.fault Fault.nullDeref) := by
  decide

end WeeFtp
